import Mathlib

/-!
Shallow embedding of `src/ls11.c`, an ls-like directory lister with an
explicit work queue for recursion, and proofs of the specification claims
about it.  Machine integers (`mode_t`, `time_t`, sizes) are modelled as
`Nat`/`Int`; C strings are Lean `String`s (with an explicit no-NUL side
condition where the C indexing tricks depend on it); the filesystem and the
libc name/time services are explicit parameters; fallible syscalls return
`Option`.
-/

namespace Ls11

/-- PATH_MAX as #define-d in the source (4096). -/
abbrev PATH_MAX : Nat := 4096

/-- FILTER_DEFAULT: hide names starting with a dot. -/
abbrev FILTER_DEFAULT : Nat := 0
/-- FILTER_ALMOST: hide only `.` and `..`. -/
abbrev FILTER_ALMOST : Nat := 1
/-- FILTER_ALL: hide nothing. -/
abbrev FILTER_ALL : Nat := 2

/-- File-type mask and type constants (POSIX values). -/
def S_IFMT : Nat := 0o170000

def S_IFBLK : Nat := 0o060000

def S_IFCHR : Nat := 0o020000

def S_IFDIR : Nat := 0o040000

def S_IFREG : Nat := 0o100000

def S_IFIFO : Nat := 0o010000

def S_IFLNK : Nat := 0o120000

def S_IFSOCK : Nat := 0o140000

def S_ISUID : Nat := 0o4000

def S_ISGID : Nat := 0o2000

def S_ISVTX : Nat := 0o1000

def S_IRUSR : Nat := 0o400

def S_IWUSR : Nat := 0o200

def S_IXUSR : Nat := 0o100

def S_IRGRP : Nat := 0o40

def S_IWGRP : Nat := 0o20

def S_IXGRP : Nat := 0o10

def S_IROTH : Nat := 0o4

def S_IWOTH : Nat := 0o2

def S_IXOTH : Nat := 0o1

/-- S_IXUGO = S_IXUSR | S_IXGRP | S_IXOTH, as in the source. -/
def S_IXUGO : Nat := S_IXUSR ||| S_IXGRP ||| S_IXOTH

def S_ISBLK (m : Nat) : Bool := m &&& S_IFMT == S_IFBLK

def S_ISCHR (m : Nat) : Bool := m &&& S_IFMT == S_IFCHR

def S_ISDIR (m : Nat) : Bool := m &&& S_IFMT == S_IFDIR

def S_ISREG (m : Nat) : Bool := m &&& S_IFMT == S_IFREG

def S_ISFIFO (m : Nat) : Bool := m &&& S_IFMT == S_IFIFO

def S_ISLNK (m : Nat) : Bool := m &&& S_IFMT == S_IFLNK

def S_ISSOCK (m : Nat) : Bool := m &&& S_IFMT == S_IFSOCK

/-- A `struct stat` restricted to the fields the program reads. -/
structure Stat where
  st_mode : Nat
  st_nlink : Nat
  st_uid : Nat
  st_gid : Nat
  st_size : Int
  st_rdev_major : Nat
  st_rdev_minor : Nat
  st_mtime : Int
deriving Repr, DecidableEq

/-- One `struct dirent` of a directory, together with the outcomes the
filesystem would give for the syscalls the program performs on the
corresponding child path: `lstatRes` is the result of `lstat` (`none` =
failure), `readlinkRes` the result of `readlink` (`none` = error return),
`statRes` the result of the symlink-following `stat`. -/
structure DirEnt where
  d_name : String
  lstatRes : Option Stat
  readlinkRes : Option String
  statRes : Option Stat
deriving Repr, DecidableEq

/-- The filesystem as seen through `opendir`/`readdir`: an association of
directory paths to their entry streams in enumeration order. -/
abbrev Fs := List (String × List DirEnt)

/-- opendir: look the path up; `none` models an opendir failure. -/
def opendir (fs : Fs) (p : String) : Option (List DirEnt) :=
  (fs.find? (fun e => e.1 == p)).map (fun e => e.2)

/-- Struct `dir_path` minus the intrusive `next` pointer: the queue is a
Lean list of these. -/
structure QItem where
  path : String
  depth : Nat
deriving Repr, DecidableEq

/-- The global configuration flags of the program. -/
structure Config where
  filter : Nat
  color : Bool
  classify : Bool
  long_format : Bool
  recursive : Bool
  half_year_ago : Int
deriving Repr, DecidableEq

/-- The libc services the formatters consult: `getpwuid`/`getgrgid` name
lookup and the two `strftime` renderings used by `get_time_string`. -/
structure Env where
  pwName : Nat → Option String
  grName : Nat → Option String
  fmtRecent : Int → String
  fmtOld : Int → String

/-- get_mode_string: the 10 printed characters (the trailing NUL dropped). -/
def get_mode_string (mode : Nat) : String := String.mk
  [ if S_ISBLK mode then 'b' else
    if S_ISCHR mode then 'c' else
    if S_ISDIR mode then 'd' else
    if S_ISREG mode then '-' else
    if S_ISFIFO mode then 'p' else
    if S_ISLNK mode then 'l' else
    if S_ISSOCK mode then 's' else '?',
    if mode &&& S_IRUSR != 0 then 'r' else '-',
    if mode &&& S_IWUSR != 0 then 'w' else '-',
    if mode &&& S_ISUID != 0 then (if mode &&& S_IXUSR != 0 then 's' else 'S')
      else (if mode &&& S_IXUSR != 0 then 'x' else '-'),
    if mode &&& S_IRGRP != 0 then 'r' else '-',
    if mode &&& S_IWGRP != 0 then 'w' else '-',
    if mode &&& S_ISGID != 0 then (if mode &&& S_IXGRP != 0 then 's' else 'S')
      else (if mode &&& S_IXGRP != 0 then 'x' else '-'),
    if mode &&& S_IROTH != 0 then 'r' else '-',
    if mode &&& S_IWOTH != 0 then 'w' else '-',
    if mode &&& S_ISVTX != 0 then (if mode &&& S_IXOTH != 0 then 't' else 'T')
      else (if mode &&& S_IXOTH != 0 then 'x' else '-') ]

/-- print_type_indicator: the classify glyph emitted after a name ("" when
nothing is printed). -/
def print_type_indicator (mode : Nat) : String :=
  if S_ISREG mode then (if mode &&& S_IXUGO != 0 then "*" else "")
  else if S_ISDIR mode then "/"
  else if S_ISLNK mode then "@"
  else if S_ISFIFO mode then "|"
  else if S_ISSOCK mode then "="
  else ""

/-- printf right alignment to a minimum field width, as in `%8s`, `%3d`. -/
def padLeft (w : Nat) (s : String) : String :=
  String.mk (List.replicate (w - s.length) ' ') ++ s

/-- print_user: `%8s ` of the looked-up name, falling back to `%8d ` of the
numeric uid. -/
def print_user (env : Env) (uid : Nat) : String :=
  match env.pwName uid with
  | some n => padLeft 8 n ++ " "
  | none => padLeft 8 (toString uid) ++ " "

/-- print_group: `%8s ` of the looked-up name, falling back to `%8d ` of the
numeric gid. -/
def print_group (env : Env) (gid : Nat) : String :=
  match env.grName gid with
  | some n => padLeft 8 n ++ " "
  | none => padLeft 8 (toString gid) ++ " "

/-- The two strftime formats get_time_string chooses between. -/
inductive TimeStyle where
  | recent
  | old
deriving Repr, DecidableEq

/-- The branch taken by get_time_string: `time - half_year_ago > 0` picks the
`MM/DD HH:MM` (recent) form, otherwise `MM/DD  YYYY` (old). -/
def get_time_style (half_year_ago t : Int) : TimeStyle :=
  if t - half_year_ago > 0 then .recent else .old

/-- get_time_string: the strftime renderings themselves live in `Env`. -/
def get_time_string (env : Env) (half_year_ago t : Int) : String :=
  match get_time_style half_year_ago t with
  | .recent => env.fmtRecent t
  | .old => env.fmtOld t

/-- The ANSI escape print_name_with_color emits before the name ("" when no
escape is printed, i.e. for the unknown file type). -/
def color_code (mode : Nat) (link_ok : Bool) : String :=
  if !link_ok then "\x1b[31m"
  else if S_ISREG mode then
    if mode &&& S_ISUID != 0 then "\x1b[37;41m"
    else if mode &&& S_ISGID != 0 then "\x1b[30;43m"
    else if mode &&& S_IXUGO != 0 then "\x1b[01;32m"
    else "\x1b[0m"
  else if S_ISDIR mode then
    if mode &&& S_ISVTX != 0 && mode &&& S_IWOTH != 0 then "\x1b[30;42m"
    else if mode &&& S_IWOTH != 0 then "\x1b[34;42m"
    else if mode &&& S_ISVTX != 0 then "\x1b[37;44m"
    else "\x1b[01;34m"
  else if S_ISLNK mode then "\x1b[01;36m"
  else if S_ISFIFO mode then "\x1b[33m"
  else if S_ISSOCK mode then "\x1b[01;35m"
  else if S_ISBLK mode then "\x1b[01;33m"
  else if S_ISCHR mode then "\x1b[01;33m"
  else ""

/-- print_name_with_color: escape, name, reset. -/
def print_name_with_color (nm : String) (mode : Nat) (link_ok : Bool) : String :=
  color_code mode link_ok ++ nm ++ "\x1b[0m"

/-- C-string indexing: character `i` of the string, `'\x00'` at or past the
terminator. -/
def cstrGet (s : String) (i : Nat) : Char := s.data.getD i '\x00'

/-- The hidden-name test of the readdir loop:
`filter != FILTER_ALL && name[0] == '.' && (filter == FILTER_DEFAULT || name[1 + (name[1] == '.')] == '\0')`. -/
def name_hidden (filt : Nat) (nm : String) : Bool :=
  filt != FILTER_ALL && cstrGet nm 0 == '.' &&
    (filt == FILTER_DEFAULT ||
      cstrGet nm (1 + (if cstrGet nm 1 == '.' then 1 else 0)) == '\x00')

/-- The recursion guard `name[0] == '.' && name[1 + (name[1] == '.')] == '\0'`
(name is `.` or `..`). -/
def is_dot_or_dotdot (nm : String) : Bool :=
  cstrGet nm 0 == '.' &&
    cstrGet nm (1 + (if cstrGet nm 1 == '.' then 1 else 0)) == '\x00'

/-- What one readdir iteration prints to stdout for a visible entry, in the
order the printf calls run: the optional long-format column block, the
(possibly colorized) name, the classify glyph, the optional
` -> target` suffix.  The final newline is implicit in the record. -/
structure EntryOut where
  longPfx : Option String
  namePart : String
  indicatorPart : String
  linkPart : Option String
deriving Repr, DecidableEq

/-- One stdout item of the program: a `\n<path>:\n` directory header or one
entry line. -/
inductive Out where
  | header (path : String)
  | entry (e : EntryOut)
deriving Repr, DecidableEq

/-- One stderr diagnostic: `withPath p` is a `perror(p)` line of the form
`<p>: <reason>`; `plain m` is a bare `fprintf(stderr, ...)` message that does
not mention any path. -/
inductive Diag where
  | withPath (path : String)
  | plain (msg : String)
deriving Repr, DecidableEq

/-- The path a diagnostic line references, if any. -/
def Diag.refPath : Diag → Option String
  | .withPath p => some p
  | .plain _ => none

/-- Value of `link_len` after the symlink block of the loop body: `readlink`'s return
value for a symlink (−1 on error), 0 (its initialiser) otherwise. -/
def entry_link_len (d : DirEnt) (st : Stat) : Int :=
  if S_ISLNK st.st_mode then
    match d.readlinkRes with
    | some t => (t.length : Int)
    | none => -1
  else 0

/-- The `link` buffer contents when they are subsequently read
(only meaningful when `entry_link_len > 0`). -/
def entry_link_str (d : DirEnt) (st : Stat) : String :=
  if S_ISLNK st.st_mode then
    match d.readlinkRes with
    | some t => t
    | none => ""
  else ""

/-- Value of `link_ok` after the symlink block: initialised `true`, cleared exactly
when the entry is a symlink and the following `stat` fails. -/
def entry_link_ok (d : DirEnt) (st : Stat) : Bool :=
  if S_ISLNK st.st_mode then d.statRes.isSome else true

/-- The `link_stat.st_mode` value used when colorizing the link target (0
stands for the uninitialised buffer, which is only read under
`link_ok = false`, where `print_name_with_color` ignores it). -/
def entry_link_mode (d : DirEnt) (st : Stat) : Nat :=
  if S_ISLNK st.st_mode then (d.statRes.map (fun s => s.st_mode)).getD 0 else 0

/-- Effect of one readdir iteration: stdout items, stderr diagnostics, and
the queue nodes appended at the `subque` insertion point. -/
structure EntStep where
  out : List Out
  err : List Diag
  enq : List QItem
deriving Repr, DecidableEq

/-- One iteration of the readdir loop of `list_dir`, for entry `d`, with
`pfx` the slash-terminated base-path prefix and `depth` the base node's
depth.  Mirrors the loop body: hidden-name filter, child-path construction
(with the strncpy truncation to PATH_MAX bytes), `lstat` with
report-and-skip on failure, the recursive-enqueue step, the symlink block,
then the output line. -/
def dirent_step (cfg : Config) (env : Env) (pfx : String) (depth : Nat)
    (d : DirEnt) : EntStep :=
  let nm := d.d_name
  if name_hidden cfg.filter nm then ⟨[], [], []⟩
  else
    let path := pfx ++ nm.take (PATH_MAX - pfx.length)
    match d.lstatRes with
    | none => ⟨[], [Diag.withPath path], []⟩
    | some st =>
      let enq :=
        if cfg.recursive && S_ISDIR st.st_mode && !(is_dot_or_dotdot nm)
        then [QItem.mk path (depth + 1)] else []
      let link_len := entry_link_len d st
      let link := entry_link_str d st
      let link_ok := entry_link_ok d st
      let longPfx : Option String :=
        if cfg.long_format then
          some (get_mode_string st.st_mode ++ " " ++
            padLeft 3 (toString st.st_nlink) ++ " " ++
            print_user env st.st_uid ++
            print_group env st.st_gid ++
            (if S_ISCHR st.st_mode || S_ISBLK st.st_mode then
              padLeft 4 (toString st.st_rdev_major) ++ "," ++
                padLeft 4 (toString st.st_rdev_minor) ++ " "
            else padLeft 9 (toString st.st_size) ++ " ") ++
            get_time_string env cfg.half_year_ago st.st_mtime ++ " ")
        else none
      let namePart :=
        if cfg.color then print_name_with_color nm st.st_mode link_ok else nm
      let indicatorPart :=
        if cfg.classify then print_type_indicator st.st_mode else ""
      let linkPart : Option String :=
        if cfg.long_format && link_len > 0 then
          some (" -> " ++
            (if cfg.color then
              print_name_with_color link (entry_link_mode d st) link_ok
            else link))
        else none
      ⟨[Out.entry ⟨longPfx, namePart, indicatorPart, linkPart⟩], [], enq⟩

/-- The readdir loop of `list_dir`.  `inserted` is the chain of nodes already
inserted between the base node and its old successor (the `subque` zipper);
`next` is the old successor chain.  Returns stdout, stderr and the queue
that follows the base node when the loop finishes. -/
def list_dir_loop (cfg : Config) (env : Env) (pfx : String) (depth : Nat) :
    List DirEnt → List QItem → List QItem → List Out × List Diag × List QItem
  | [], inserted, next => ([], [], inserted ++ next)
  | d :: rest, inserted, next =>
    let s := dirent_step cfg env pfx depth d
    let r := list_dir_loop cfg env pfx depth rest (inserted ++ s.enq) next
    (s.out ++ r.1, s.err ++ r.2.1, r.2.2)

/-- Result of one `list_dir` call: output, diagnostics, the queue that
follows the processed node afterwards, and whether a directory handle was
opened resp. closed during the call. -/
structure LdResult where
  out : List Out
  err : List Diag
  queue : List QItem
  opened : Bool
  closed : Bool
deriving Repr, DecidableEq

/-- list_dir: opendir (perror-and-return on failure), the
`path_len >= PATH_MAX - 1` guard (whose early return skips `closedir`),
the trailing-slash normalisation of the prefix, then the readdir loop and
`closedir`. -/
def list_dir (cfg : Config) (env : Env) (fs : Fs) (base : QItem)
    (next : List QItem) : LdResult :=
  match opendir fs base.path with
  | none => ⟨[], [Diag.withPath base.path], next, false, false⟩
  | some dents =>
    let path_len := base.path.length
    if path_len ≥ PATH_MAX - 1 then
      ⟨[], [Diag.plain "too long path"], next, true, false⟩
    else
      let pfx :=
        if base.path.data.getLast? != some '/' then base.path ++ "/"
        else base.path
      let r := list_dir_loop cfg env pfx base.depth dents [] next
      ⟨r.1, r.2.1, r.2.2, true, true⟩

/-- The main driver loop: while the queue is non-empty, pop the head, print
its `\n<path>:\n` header unless its depth is 0, run `list_dir` (which may
insert new nodes right after the head), free the head.  `fuel` bounds the
number of iterations so the function is total over arbitrary modelled
filesystems. -/
def run (cfg : Config) (env : Env) (fs : Fs) :
    Nat → List QItem → List Out × List Diag
  | 0, _ => ([], [])
  | _ + 1, [] => ([], [])
  | fuel + 1, h :: rest =>
    let hdr := if h.depth != 0 then [Out.header h.path] else []
    let r := list_dir cfg env fs h rest
    let t := run cfg env fs fuel r.queue
    (hdr ++ r.out ++ t.1, r.err ++ t.2)

/-- main after argument parsing: seed the queue with the root at depth 0. -/
def ls_main (cfg : Config) (env : Env) (fs : Fs) (root : String)
    (fuel : Nat) : List Out × List Diag :=
  run cfg env fs fuel [QItem.mk root 0]

/-- Modelled from the spec (§3/§4.4 step 4): the subdirectory, if any, that
one entry contributes to the queue — the entry must be visible under the
filter, its lstat must succeed, recursion must be on, its no-follow mode
must be a directory, and its name must not be `.` or `..`. -/
def specEnq (cfg : Config) (pfx : String) (depth : Nat) (d : DirEnt) :
    Option QItem :=
  if name_hidden cfg.filter d.d_name then none
  else
    match d.lstatRes with
    | none => none
    | some st =>
      if cfg.recursive && S_ISDIR st.st_mode && !(is_dot_or_dotdot d.d_name)
      then some (QItem.mk (pfx ++ d.d_name.take (PATH_MAX - pfx.length)) (depth + 1))
      else none

/-- Modelled from the spec (§3): the subdirectories a node contributes, in
the order its entries were read; empty when the directory cannot be opened
or its base path is too long. -/
def specSubdirs (cfg : Config) (fs : Fs) (base : QItem) : List QItem :=
  match opendir fs base.path with
  | none => []
  | some dents =>
    if base.path.length ≥ PATH_MAX - 1 then []
    else
      let pfx :=
        if base.path.data.getLast? != some '/' then base.path ++ "/"
        else base.path
      dents.filterMap (specEnq cfg pfx base.depth)

section ConcreteInputs

/-- Libc environment with no name database and fixed strftime renderings. -/
def env0 : Env := ⟨fun _ => none, fun _ => none, fun _ => "REC", fun _ => "OLD"⟩

/-- Default filter, no styling, recursion on. -/
def cfgR : Config := ⟨FILTER_DEFAULT, false, false, false, true, 0⟩

/-- Long format and recursion on. -/
def cfgL : Config := ⟨FILTER_DEFAULT, false, false, true, true, 0⟩

def stDir : Stat := ⟨0o040755, 2, 0, 0, 0, 0, 0, 0⟩

def stReg : Stat := ⟨0o100644, 1, 0, 0, 5, 0, 0, 0⟩

def stLnk : Stat := ⟨0o120777, 1, 0, 0, 1, 0, 0, 0⟩

def eA : DirEnt := ⟨"a", some stDir, none, none⟩

def eF : DirEnt := ⟨"f", some stReg, none, none⟩

def eBad : DirEnt := ⟨"bad", none, none, none⟩

def eLnk : DirEnt := ⟨"ln", some stLnk, some "t", some stReg⟩

def fs0 : Fs := [("r", [eA, eF, eBad, eLnk]), ("r/a", [eF])]

end ConcreteInputs

/-- Claim C2: under the Default policy a name is hidden iff it starts with
`.`; under Almost iff it is exactly `.` or exactly `..`; under All no name
is hidden.  The hypothesis says the name is a valid C string (no embedded
NUL bytes). -/
theorem c2_name_filter (nm : String) (hnz : '\x00' ∉ nm.data) :
    (name_hidden FILTER_DEFAULT nm = true ↔ nm.data.head? = some '.')
    ∧ (name_hidden FILTER_ALMOST nm = true ↔ (nm = "." ∨ nm = ".."))
    ∧ name_hidden FILTER_ALL nm = false := by
  obtain ⟨l⟩ := nm
  refine ⟨?_, ?_, ?_⟩
  · cases l with
    | nil => simp [name_hidden, cstrGet]
    | cons c t => simp [name_hidden, cstrGet]
  · rcases l with _ | ⟨c1, _ | ⟨c2, _ | ⟨c3, t⟩⟩⟩ <;>
      simp only [List.mem_cons, List.mem_singleton, List.not_mem_nil] at hnz <;>
      simp [name_hidden, cstrGet, String.ext_iff] <;>
      by_cases h2 : c2 = '.' <;>
      simp_all [cstrGet] <;> tauto
  · simp [name_hidden]

/-- Witness instantiating `c2_name_filter` at the name `.git`. -/
theorem c2_name_filter_witness :
    ('\x00' ∉ ".git".data)
    ∧ ((name_hidden FILTER_DEFAULT ".git" = true ↔ ".git".data.head? = some '.')
      ∧ (name_hidden FILTER_ALMOST ".git" = true ↔ (".git" = "." ∨ ".git" = ".."))
      ∧ name_hidden FILTER_ALL ".git" = false) :=
  ⟨by decide, c2_name_filter ".git" (by decide)⟩

/-- Claim C3: for every mode value the permission string has exactly 10
characters; character 0 is a type glyph from `b,c,d,-,p,l,s,?`; the nine
remaining slots are the owner/group/other rwx slots, with setuid, setgid
and sticky rendered as `s`/`S`, `s`/`S`, `t`/`T` in the execute slot of
their group (lowercase iff the execute bit is also set), and plain slots
showing the corresponding r/w/x bit. -/
theorem c3_mode_string (m : Nat) :
    (get_mode_string m).length = 10
    ∧ cstrGet (get_mode_string m) 0 ∈ ['b', 'c', 'd', '-', 'p', 'l', 's', '?']
    ∧ cstrGet (get_mode_string m) 1 = (if m &&& S_IRUSR != 0 then 'r' else '-')
    ∧ cstrGet (get_mode_string m) 2 = (if m &&& S_IWUSR != 0 then 'w' else '-')
    ∧ cstrGet (get_mode_string m) 3 =
        (if m &&& S_ISUID != 0 then (if m &&& S_IXUSR != 0 then 's' else 'S')
         else (if m &&& S_IXUSR != 0 then 'x' else '-'))
    ∧ cstrGet (get_mode_string m) 4 = (if m &&& S_IRGRP != 0 then 'r' else '-')
    ∧ cstrGet (get_mode_string m) 5 = (if m &&& S_IWGRP != 0 then 'w' else '-')
    ∧ cstrGet (get_mode_string m) 6 =
        (if m &&& S_ISGID != 0 then (if m &&& S_IXGRP != 0 then 's' else 'S')
         else (if m &&& S_IXGRP != 0 then 'x' else '-'))
    ∧ cstrGet (get_mode_string m) 7 = (if m &&& S_IROTH != 0 then 'r' else '-')
    ∧ cstrGet (get_mode_string m) 8 = (if m &&& S_IWOTH != 0 then 'w' else '-')
    ∧ cstrGet (get_mode_string m) 9 =
        (if m &&& S_ISVTX != 0 then (if m &&& S_IXOTH != 0 then 't' else 'T')
         else (if m &&& S_IXOTH != 0 then 'x' else '-')) := by
  have hmem : ∀ (b1 b2 b3 b4 b5 b6 b7 : Bool),
      (if b1 then 'b' else if b2 then 'c' else if b3 then 'd' else
       if b4 then '-' else if b5 then 'p' else if b6 then 'l' else
       if b7 then 's' else '?') ∈ ['b', 'c', 'd', '-', 'p', 'l', 's', '?'] := by
    decide
  exact ⟨rfl, hmem _ _ _ _ _ _ _, rfl, rfl, rfl, rfl, rfl, rfl, rfl, rfl, rfl⟩

/-- Claim C4: the time formatter picks the short `MM/DD HH:MM` form iff
`mtime - half_year_ago > 0`; an mtime of exactly `half_year_ago + 1` picks
the short form, and any mtime `≤ half_year_ago` picks the long
`MM/DD  YYYY` form. -/
theorem c4_time_selection (env : Env) (h t : Int) (hle : t ≤ h) :
    get_time_style h t = .old
    ∧ get_time_style h (h + 1) = .recent
    ∧ (∀ u : Int, get_time_style h u = .recent ↔ u - h > 0)
    ∧ get_time_string env h t = env.fmtOld t
    ∧ get_time_string env h (h + 1) = env.fmtRecent (h + 1) := by
  have hold : get_time_style h t = .old := by
    unfold get_time_style; rw [if_neg]; omega
  have hrec : get_time_style h (h + 1) = .recent := by
    unfold get_time_style; rw [if_pos]; omega
  refine ⟨hold, hrec, ?_, ?_, ?_⟩
  · intro u
    unfold get_time_style
    by_cases hu : u - h > 0
    · simp [hu]
    · simp [hu]
  · unfold get_time_string; rw [hold]
  · unfold get_time_string; rw [hrec]

/-- Witness instantiating `c4_time_selection` at half_year_ago = 0,
mtime = 0. -/
theorem c4_time_selection_witness :
    ((0 : Int) ≤ 0)
    ∧ (get_time_style 0 0 = .old
      ∧ get_time_style 0 (0 + 1) = .recent
      ∧ (∀ u : Int, get_time_style 0 u = .recent ↔ u - 0 > 0)
      ∧ get_time_string env0 0 0 = env0.fmtOld 0
      ∧ get_time_string env0 0 (0 + 1) = env0.fmtRecent (0 + 1)) :=
  ⟨by decide, c4_time_selection env0 0 0 (by decide)⟩

/-- Claim C5: in color mode the broken-link rule is checked first and forces
the red escape for every mode; and for a regular file the precedence is
setuid (SGR 37;41), then setgid (SGR 30;43), then any execute bit
(bold green 01;32), then the reset style. -/
theorem c5_color_rules (m : Nat) (hreg : S_ISREG m = true) :
    (∀ k : Nat, color_code k false = "\x1b[31m")
    ∧ color_code m true =
        (if m &&& S_ISUID != 0 then "\x1b[37;41m"
         else if m &&& S_ISGID != 0 then "\x1b[30;43m"
         else if m &&& S_IXUGO != 0 then "\x1b[01;32m"
         else "\x1b[0m") := by
  refine ⟨fun k => rfl, ?_⟩
  simp [color_code, hreg]

/-- Witness instantiating `c5_color_rules` at a plain regular-file mode. -/
theorem c5_color_rules_witness :
    S_ISREG 0o100644 = true
    ∧ ((∀ k : Nat, color_code k false = "\x1b[31m")
      ∧ color_code 0o100644 true =
          (if 0o100644 &&& S_ISUID != 0 then "\x1b[37;41m"
           else if 0o100644 &&& S_ISGID != 0 then "\x1b[30;43m"
           else if 0o100644 &&& S_IXUGO != 0 then "\x1b[01;32m"
           else "\x1b[0m")) :=
  ⟨by decide, c5_color_rules 0o100644 (by decide)⟩

/-- The queue nodes one readdir iteration inserts are exactly the
spec-described optional subdirectory of that entry. -/
theorem dirent_step_enq (cfg : Config) (env : Env) (pfx : String)
    (depth : Nat) (d : DirEnt) :
    (dirent_step cfg env pfx depth d).enq = (specEnq cfg pfx depth d).toList := by
  unfold dirent_step specEnq
  by_cases hh : name_hidden cfg.filter d.d_name
  · simp [hh]
  · cases hl : d.lstatRes with
    | none => simp [hh, hl]
    | some st =>
      by_cases hc :
          (cfg.recursive && S_ISDIR st.st_mode && !(is_dot_or_dotdot d.d_name)) = true
      · simp [hh, hl, hc]
      · simp [hh, hl, hc]

/-- One readdir iteration only ever prints entry lines, never headers. -/
theorem dirent_step_no_header (cfg : Config) (env : Env) (pfx : String)
    (depth : Nat) (d : DirEnt) :
    ∀ o ∈ (dirent_step cfg env pfx depth d).out, ∀ p, o ≠ Out.header p := by
  intro o ho p hcontra
  rw [hcontra] at ho
  unfold dirent_step at ho
  by_cases hh : name_hidden cfg.filter d.d_name
  · simp [hh] at ho
  · cases hl : d.lstatRes with
    | none => simp [hh, hl] at ho
    | some st => simp [hh, hl] at ho

/-- Net effect of the readdir loop on the queue: the already-inserted chain,
then every subdirectory discovered in entry order, then the old successor
chain. -/
theorem list_dir_loop_queue (cfg : Config) (env : Env) (pfx : String)
    (depth : Nat) (dents : List DirEnt) :
    ∀ (ins next : List QItem),
      (list_dir_loop cfg env pfx depth dents ins next).2.2 =
        ins ++ dents.filterMap (specEnq cfg pfx depth) ++ next := by
  induction dents with
  | nil => intro ins next; simp [list_dir_loop]
  | cons d rest ih =>
    intro ins next
    simp only [list_dir_loop]
    rw [ih, dirent_step_enq]
    cases h : specEnq cfg pfx depth d with
    | none => simp [List.filterMap_cons, h]
    | some q => simp [List.filterMap_cons, h]

/-- The readdir loop prints only entry lines, never headers. -/
theorem list_dir_loop_no_header (cfg : Config) (env : Env) (pfx : String)
    (depth : Nat) (dents : List DirEnt) :
    ∀ (ins next : List QItem) (o : Out),
      o ∈ (list_dir_loop cfg env pfx depth dents ins next).1 →
      ∀ p, o ≠ Out.header p := by
  induction dents with
  | nil => intro ins next o ho; simp [list_dir_loop] at ho
  | cons d rest ih =>
    intro ins next o ho
    simp only [list_dir_loop, List.mem_append] at ho
    rcases ho with h | h
    · exact dirent_step_no_header cfg env pfx depth d o h
    · exact ih _ _ o h

/-- Unfolding of `list_dir` when `opendir` fails: perror and return. -/
theorem list_dir_eq_none (cfg : Config) (env : Env) (fs : Fs) (base : QItem)
    (next : List QItem) (h : opendir fs base.path = none) :
    list_dir cfg env fs base next =
      ⟨[], [Diag.withPath base.path], next, false, false⟩ := by
  unfold list_dir; rw [h]

/-- Unfolding of `list_dir` when `opendir` succeeds: the length guard, then the loop. -/
theorem list_dir_eq_some (cfg : Config) (env : Env) (fs : Fs) (base : QItem)
    (next : List QItem) (dents : List DirEnt)
    (h : opendir fs base.path = some dents) :
    list_dir cfg env fs base next =
      (if base.path.length ≥ PATH_MAX - 1 then
        ⟨[], [Diag.plain "too long path"], next, true, false⟩
      else
        let pfx :=
          if base.path.data.getLast? != some '/' then base.path ++ "/"
          else base.path
        let r := list_dir_loop cfg env pfx base.depth dents [] next
        ⟨r.1, r.2.1, r.2.2, true, true⟩) := by
  unfold list_dir; rw [h]

/-- Unfolding of `specSubdirs` when `opendir` fails. -/
theorem specSubdirs_eq_none (cfg : Config) (fs : Fs) (base : QItem)
    (h : opendir fs base.path = none) : specSubdirs cfg fs base = [] := by
  unfold specSubdirs; rw [h]

/-- Unfolding of `specSubdirs` when `opendir` succeeds. -/
theorem specSubdirs_eq_some (cfg : Config) (fs : Fs) (base : QItem)
    (dents : List DirEnt) (h : opendir fs base.path = some dents) :
    specSubdirs cfg fs base =
      (if base.path.length ≥ PATH_MAX - 1 then []
      else
        let pfx :=
          if base.path.data.getLast? != some '/' then base.path ++ "/"
          else base.path
        dents.filterMap (specEnq cfg pfx base.depth)) := by
  unfold specSubdirs; rw [h]

/-- Net effect of one `list_dir` call on the queue: the discovered
subdirectories are inserted immediately after the processed node, in entry
order, in front of the untouched remainder of the queue. -/
theorem list_dir_queue_eq (cfg : Config) (env : Env) (fs : Fs) (base : QItem)
    (next : List QItem) :
    (list_dir cfg env fs base next).queue = specSubdirs cfg fs base ++ next := by
  cases ho : opendir fs base.path with
  | none =>
    rw [list_dir_eq_none cfg env fs base next ho, specSubdirs_eq_none cfg fs base ho]
    simp
  | some dents =>
    rw [list_dir_eq_some cfg env fs base next dents ho,
      specSubdirs_eq_some cfg fs base dents ho]
    by_cases hl : base.path.length ≥ PATH_MAX - 1
    · rw [if_pos hl, if_pos hl]
      simp
    · rw [if_neg hl, if_neg hl]
      simp [list_dir_loop_queue]

/-- The function `list_dir` itself never prints a header line. -/
theorem list_dir_no_header (cfg : Config) (env : Env) (fs : Fs) (base : QItem)
    (next : List QItem) :
    ∀ o ∈ (list_dir cfg env fs base next).out, ∀ p, o ≠ Out.header p := by
  intro o ho p
  cases hop : opendir fs base.path with
  | none =>
    rw [list_dir_eq_none cfg env fs base next hop] at ho
    simp at ho
  | some dents =>
    rw [list_dir_eq_some cfg env fs base next dents hop] at ho
    by_cases hl : base.path.length ≥ PATH_MAX - 1
    · rw [if_pos hl] at ho
      simp at ho
    · rw [if_neg hl] at ho
      exact list_dir_loop_no_header cfg env _ _ dents [] next o ho p

/-- A subdirectory contributed by one entry sits one level below its
parent. -/
theorem specEnq_depth (cfg : Config) (pfx : String) (depth : Nat)
    (d : DirEnt) (q : QItem) (h : specEnq cfg pfx depth d = some q) :
    q.depth = depth + 1 := by
  obtain ⟨qp, qd⟩ := q
  unfold specEnq at h
  by_cases hh : name_hidden cfg.filter d.d_name
  · simp [hh] at h
  · cases hl : d.lstatRes with
    | none => simp [hh, hl] at h
    | some st =>
      by_cases hc :
          (cfg.recursive && S_ISDIR st.st_mode && !(is_dot_or_dotdot d.d_name)) = true
      · simp [hh, hl, hc] at h
        exact h.2.symm
      · simp [hh, hl, hc] at h

/-- Every subdirectory a node contributes to the queue has depth one more
than the node itself (hence strictly positive). -/
theorem specSubdirs_depth (cfg : Config) (fs : Fs) (base : QItem) :
    ∀ q ∈ specSubdirs cfg fs base, q.depth = base.depth + 1 := by
  intro q hq
  cases ho : opendir fs base.path with
  | none =>
    rw [specSubdirs_eq_none cfg fs base ho] at hq
    simp at hq
  | some dents =>
    rw [specSubdirs_eq_some cfg fs base dents ho] at hq
    by_cases hl : base.path.length ≥ PATH_MAX - 1
    · rw [if_pos hl] at hq
      simp at hq
    · rw [if_neg hl] at hq
      simp only [List.mem_filterMap] at hq
      obtain ⟨d, _, hd⟩ := hq
      exact specEnq_depth cfg _ base.depth d q hd

/-- One unfolding of the driver loop. -/
theorem run_cons (cfg : Config) (env : Env) (fs : Fs) (fuel : Nat)
    (h : QItem) (rest : List QItem) :
    run cfg env fs (fuel + 1) (h :: rest) =
      ((if h.depth != 0 then [Out.header h.path] else [])
        ++ (list_dir cfg env fs h rest).out
        ++ (run cfg env fs fuel (list_dir cfg env fs h rest).queue).1,
       (list_dir cfg env fs h rest).err
        ++ (run cfg env fs fuel (list_dir cfg env fs h rest).queue).2) := rfl

/-- Claim C1: with recursion enabled, the subdirectories discovered while
listing a node are inserted into the queue immediately after that node's
position, in the order the entries were read (first conjunct: the queue
after the node is exactly its subdirectories followed by the untouched old
remainder); the driver prints the node's header (iff its depth is nonzero,
so never for the depth-0 root), then the node's complete listing, and only
then processes the queue whose head block is that node's subdirectories
(second conjunct) — so all entries of a directory are listed before any of
its subdirectories, and same-parent subdirectories are visited in entry
order; the listing itself contains no header lines (third conjunct); and
every inserted subdirectory has depth parent+1 > 0, so each of them will
get a header when listed (fourth conjunct). -/
theorem c1_traversal_order (cfg : Config) (env : Env) (fs : Fs) (h : QItem)
    (rest : List QItem) (fuel : Nat) (hrec : cfg.recursive = true) :
    (list_dir cfg env fs h rest).queue = specSubdirs cfg fs h ++ rest
    ∧ run cfg env fs (fuel + 1) (h :: rest) =
        ((if h.depth != 0 then [Out.header h.path] else [])
          ++ (list_dir cfg env fs h rest).out
          ++ (run cfg env fs fuel (specSubdirs cfg fs h ++ rest)).1,
         (list_dir cfg env fs h rest).err
          ++ (run cfg env fs fuel (specSubdirs cfg fs h ++ rest)).2)
    ∧ (∀ o ∈ (list_dir cfg env fs h rest).out, ∀ p, o ≠ Out.header p)
    ∧ (∀ q ∈ specSubdirs cfg fs h, q.depth = h.depth + 1) := by
  refine ⟨list_dir_queue_eq cfg env fs h rest, ?_,
    list_dir_no_header cfg env fs h rest, specSubdirs_depth cfg fs h⟩
  have e := run_cons cfg env fs fuel h rest
  rw [list_dir_queue_eq cfg env fs h rest] at e
  exact e

/-- Witness instantiating `c1_traversal_order` on the concrete tree `fs0`
rooted at `r`. -/
theorem c1_traversal_order_witness :
    cfgR.recursive = true
    ∧ ((list_dir cfgR env0 fs0 (QItem.mk "r" 0) []).queue =
          specSubdirs cfgR fs0 (QItem.mk "r" 0) ++ []
      ∧ run cfgR env0 fs0 (3 + 1) (QItem.mk "r" 0 :: []) =
          ((if (QItem.mk "r" 0).depth != 0 then [Out.header (QItem.mk "r" 0).path] else [])
            ++ (list_dir cfgR env0 fs0 (QItem.mk "r" 0) []).out
            ++ (run cfgR env0 fs0 3 (specSubdirs cfgR fs0 (QItem.mk "r" 0) ++ [])).1,
           (list_dir cfgR env0 fs0 (QItem.mk "r" 0) []).err
            ++ (run cfgR env0 fs0 3 (specSubdirs cfgR fs0 (QItem.mk "r" 0) ++ [])).2)
      ∧ (∀ o ∈ (list_dir cfgR env0 fs0 (QItem.mk "r" 0) []).out, ∀ p, o ≠ Out.header p)
      ∧ (∀ q ∈ specSubdirs cfgR fs0 (QItem.mk "r" 0), q.depth = (QItem.mk "r" 0).depth + 1)) :=
  ⟨rfl, c1_traversal_order cfgR env0 fs0 (QItem.mk "r" 0) [] 3 rfl⟩

/-- Claim C7: recoverable errors are contained at the point of detection.
An entry whose lstat fails contributes exactly one path-referencing
diagnostic, no output line and no queue node (first conjunct), and the rest
of the directory is processed exactly as if the entry were not there
(second conjunct); a directory whose opendir fails yields exactly one
path-referencing diagnostic, no output and an untouched queue (third
conjunct), and the driver then continues with the remaining queued
directories (fourth conjunct). -/
theorem c7_error_containment (cfg : Config) (env : Env) (fs : Fs)
    (pfx : String) (depth : Nat) (d : DirEnt) (rest : List DirEnt)
    (ins next : List QItem) (b : QItem) (qrest : List QItem) (fuel : Nat)
    (hvis : name_hidden cfg.filter d.d_name = false)
    (hstat : d.lstatRes = none)
    (hopen : opendir fs b.path = none) :
    dirent_step cfg env pfx depth d =
      ⟨[], [Diag.withPath (pfx ++ d.d_name.take (PATH_MAX - pfx.length))], []⟩
    ∧ list_dir_loop cfg env pfx depth (d :: rest) ins next =
        ((list_dir_loop cfg env pfx depth rest ins next).1,
         Diag.withPath (pfx ++ d.d_name.take (PATH_MAX - pfx.length))
           :: (list_dir_loop cfg env pfx depth rest ins next).2.1,
         (list_dir_loop cfg env pfx depth rest ins next).2.2)
    ∧ list_dir cfg env fs b qrest = ⟨[], [Diag.withPath b.path], qrest, false, false⟩
    ∧ run cfg env fs (fuel + 1) (b :: qrest) =
        ((if b.depth != 0 then [Out.header b.path] else [])
          ++ (run cfg env fs fuel qrest).1,
         Diag.withPath b.path :: (run cfg env fs fuel qrest).2) := by
  have hstep : dirent_step cfg env pfx depth d =
      ⟨[], [Diag.withPath (pfx ++ d.d_name.take (PATH_MAX - pfx.length))], []⟩ := by
    unfold dirent_step
    simp [hvis, hstat]
  have hld : list_dir cfg env fs b qrest =
      ⟨[], [Diag.withPath b.path], qrest, false, false⟩ :=
    list_dir_eq_none cfg env fs b qrest hopen
  refine ⟨hstep, ?_, hld, ?_⟩
  · simp only [list_dir_loop, hstep]
    simp
  · rw [run_cons cfg env fs fuel b qrest, hld]
    simp

/-- Witness instantiating `c7_error_containment`: the lstat-failing entry
`bad` of the tree `fs0`, and a directory `missing` that is not in `fs0`. -/
theorem c7_error_containment_witness :
    (name_hidden cfgR.filter eBad.d_name = false
      ∧ eBad.lstatRes = none
      ∧ opendir fs0 (QItem.mk "missing" 0).path = none)
    ∧ (dirent_step cfgR env0 "r/" 0 eBad =
        ⟨[], [Diag.withPath ("r/" ++ eBad.d_name.take (PATH_MAX - "r/".length))], []⟩
      ∧ list_dir_loop cfgR env0 "r/" 0 (eBad :: [eF]) [] [] =
          ((list_dir_loop cfgR env0 "r/" 0 [eF] [] []).1,
           Diag.withPath ("r/" ++ eBad.d_name.take (PATH_MAX - "r/".length))
             :: (list_dir_loop cfgR env0 "r/" 0 [eF] [] []).2.1,
           (list_dir_loop cfgR env0 "r/" 0 [eF] [] []).2.2)
      ∧ list_dir cfgR env0 fs0 (QItem.mk "missing" 0) [] =
          ⟨[], [Diag.withPath (QItem.mk "missing" 0).path], [], false, false⟩
      ∧ run cfgR env0 fs0 (1 + 1) (QItem.mk "missing" 0 :: []) =
          ((if (QItem.mk "missing" 0).depth != 0
              then [Out.header (QItem.mk "missing" 0).path] else [])
            ++ (run cfgR env0 fs0 1 []).1,
           Diag.withPath (QItem.mk "missing" 0).path :: (run cfgR env0 fs0 1 []).2)) :=
  ⟨⟨by decide, rfl, by decide⟩,
    c7_error_containment cfgR env0 fs0 "r/" 0 eBad [eF] [] []
      (QItem.mk "missing" 0) [] 1 (by decide) rfl (by decide)⟩

/-- A symlink mode is never a directory mode. -/
theorem islnk_not_isdir (m : Nat) (h : S_ISLNK m = true) : S_ISDIR m = false := by
  unfold S_ISLNK at h
  unfold S_ISDIR
  have hm : m &&& S_IFMT = S_IFLNK := by simpa using h
  rw [hm]
  decide

/-- Claim C9: the recursion decision is made on the lstat (no-follow)
metadata, so an entry whose lstat reports a symbolic link is never
enqueued: its mode is not a directory mode (first conjunct), the readdir
iteration inserts nothing for it (second conjunct), and the queue the loop
produces is the same as if the symlink entry were absent (third
conjunct). -/
theorem c9_no_symlink_recursion (cfg : Config) (env : Env) (pfx : String)
    (depth : Nat) (d : DirEnt) (st : Stat)
    (hl : d.lstatRes = some st) (hlnk : S_ISLNK st.st_mode = true) :
    S_ISDIR st.st_mode = false
    ∧ (dirent_step cfg env pfx depth d).enq = []
    ∧ ∀ (rest : List DirEnt) (ins next : List QItem),
        (list_dir_loop cfg env pfx depth (d :: rest) ins next).2.2 =
          (list_dir_loop cfg env pfx depth rest ins next).2.2 := by
  have hdir : S_ISDIR st.st_mode = false := islnk_not_isdir st.st_mode hlnk
  have hspec : specEnq cfg pfx depth d = none := by
    unfold specEnq
    by_cases hh : name_hidden cfg.filter d.d_name
    · simp [hh]
    · simp [hh, hl, hdir]
  refine ⟨hdir, ?_, ?_⟩
  · rw [dirent_step_enq, hspec]
    rfl
  · intro rest ins next
    rw [list_dir_loop_queue, list_dir_loop_queue, List.filterMap_cons, hspec]

/-- Witness instantiating `c9_no_symlink_recursion` at the symlink entry
`ln` of the tree `fs0`. -/
theorem c9_no_symlink_recursion_witness :
    (eLnk.lstatRes = some stLnk ∧ S_ISLNK stLnk.st_mode = true)
    ∧ (S_ISDIR stLnk.st_mode = false
      ∧ (dirent_step cfgR env0 "r/" 0 eLnk).enq = []
      ∧ ∀ (rest : List DirEnt) (ins next : List QItem),
          (list_dir_loop cfgR env0 "r/" 0 (eLnk :: rest) ins next).2.2 =
            (list_dir_loop cfgR env0 "r/" 0 rest ins next).2.2) :=
  ⟨⟨rfl, by decide⟩,
    c9_no_symlink_recursion cfgR env0 "r/" 0 eLnk stLnk rfl (by decide)⟩

/-- Positivity of `link_len`: it is positive exactly for a symlink with a nonempty readlink
result. -/
theorem link_len_pos_iff (d : DirEnt) (st : Stat) :
    entry_link_len d st > 0 ↔
      (S_ISLNK st.st_mode = true ∧ ∃ t, d.readlinkRes = some t ∧ 0 < t.length) := by
  unfold entry_link_len
  by_cases hs : S_ISLNK st.st_mode = true
  · rw [if_pos hs]
    cases hr : d.readlinkRes with
    | none => simp [hs]
    | some t => simp [hs]
  · rw [if_neg hs]
    simp [hs]

/-- Claim C10: in long format a visible entry produces exactly one output
line (first conjunct); that line carries a ` -> target` suffix iff the
entry is a symlink whose readlink returned at least one byte (second
conjunct) — in particular a symlink whose target cannot be read is listed
with no suffix; on a symlink the broken-link flag is exactly the success of
the following stat (third conjunct), and it does not depend on the
readlink outcome (fourth conjunct). -/
theorem c10_link_suffix (cfg : Config) (env : Env) (pfx : String)
    (depth : Nat) (d : DirEnt) (st : Stat)
    (hl : d.lstatRes = some st)
    (hvis : name_hidden cfg.filter d.d_name = false)
    (hlong : cfg.long_format = true) :
    (dirent_step cfg env pfx depth d).out.length = 1
    ∧ (∀ e : EntryOut, Out.entry e ∈ (dirent_step cfg env pfx depth d).out →
        (e.linkPart.isSome = true ↔
          (S_ISLNK st.st_mode = true ∧ ∃ t, d.readlinkRes = some t ∧ 0 < t.length)))
    ∧ (S_ISLNK st.st_mode = true → entry_link_ok d st = d.statRes.isSome)
    ∧ (∀ r : Option String,
        entry_link_ok { d with readlinkRes := r } st = entry_link_ok d st) := by
  refine ⟨?_, ?_, ?_, ?_⟩
  · unfold dirent_step
    simp [hvis, hl]
  · intro e he
    simp [dirent_step, hvis, hl] at he
    subst he
    rw [← link_len_pos_iff d st]
    simp only [hlong, Bool.true_and]
    by_cases hp : entry_link_len d st > 0
    · simp [hp]
    · simp [hp]
  · intro hs
    unfold entry_link_ok
    rw [if_pos hs]
  · intro r
    unfold entry_link_ok
    rfl

/-- Witness instantiating `c10_link_suffix` at the symlink entry `ln` in
long format. -/
theorem c10_link_suffix_witness :
    (eLnk.lstatRes = some stLnk
      ∧ name_hidden cfgL.filter eLnk.d_name = false
      ∧ cfgL.long_format = true)
    ∧ ((dirent_step cfgL env0 "r/" 0 eLnk).out.length = 1
      ∧ (∀ e : EntryOut, Out.entry e ∈ (dirent_step cfgL env0 "r/" 0 eLnk).out →
          (e.linkPart.isSome = true ↔
            (S_ISLNK stLnk.st_mode = true
              ∧ ∃ t, eLnk.readlinkRes = some t ∧ 0 < t.length)))
      ∧ (S_ISLNK stLnk.st_mode = true → entry_link_ok eLnk stLnk = eLnk.statRes.isSome)
      ∧ (∀ r : Option String,
          entry_link_ok { eLnk with readlinkRes := r } stLnk = entry_link_ok eLnk stLnk)) :=
  ⟨⟨rfl, by decide, rfl⟩,
    c10_link_suffix cfgL env0 "r/" 0 eLnk stLnk rfl (by decide) rfl⟩

/-- A base path of length PATH_MAX - 1 = 4095 characters. -/
def lp : String := String.mk (List.replicate 4095 'a')

/-- A filesystem in which the 4095-character path names an openable, empty
directory. -/
def fsL : Fs := [(lp, [])]

/-- The long path has length 4095. -/
theorem lp_len : lp.length = 4095 := by
  show (List.replicate 4095 'a').length = 4095
  simp only [List.length_replicate]

/-- The long directory opens successfully in `fsL`. -/
theorem opendir_fsL : opendir fsL lp = some [] := by
  unfold opendir fsL
  rw [List.find?_cons_of_pos]
  · rfl
  · simp

/-- The long path trips the `path_len >= PATH_MAX - 1` guard. -/
theorem lp_ge : lp.length ≥ PATH_MAX - 1 := by
  rw [lp_len]
  decide

/-- Claim C6 fails on the code: when `opendir` succeeds but the base path
reaches `PATH_MAX - 1`, `list_dir` returns through the too-long-path error
exit without calling `closedir`, so the handle opened for that invocation
is not released before the driver advances. -/
theorem c6_handle_leak (cfg : Config) (env : Env) (fs : Fs) (base : QItem)
    (next : List QItem) (dents : List DirEnt)
    (hopen : opendir fs base.path = some dents)
    (hlen : base.path.length ≥ PATH_MAX - 1) :
    (list_dir cfg env fs base next).opened = true
    ∧ (list_dir cfg env fs base next).closed = false := by
  rw [list_dir_eq_some cfg env fs base next dents hopen, if_pos hlen]
  exact ⟨rfl, rfl⟩

/-- Witness instantiating `c6_handle_leak` at the concrete 4095-character
path. -/
theorem c6_handle_leak_witness :
    (opendir fsL (QItem.mk lp 0).path = some []
      ∧ (QItem.mk lp 0).path.length ≥ PATH_MAX - 1)
    ∧ ((list_dir cfgR env0 fsL (QItem.mk lp 0) []).opened = true
      ∧ (list_dir cfgR env0 fsL (QItem.mk lp 0) []).closed = false) :=
  ⟨⟨opendir_fsL, lp_ge⟩,
    c6_handle_leak cfgR env0 fsL (QItem.mk lp 0) [] [] opendir_fsL lp_ge⟩

/-- Claim C8 counterexample: for a queued directory whose base path has
length PATH_MAX - 1, the only diagnostic the listing emits is the fixed
message `too long path`, which does not reference the offending path (its
`refPath` is `none`), contradicting the claimed `<path>: <reason>` form. -/
theorem c8_counterexample :
    (list_dir cfgR env0 fsL (QItem.mk lp 0) []).err = [Diag.plain "too long path"]
    ∧ ∀ g ∈ (list_dir cfgR env0 fsL (QItem.mk lp 0) []).err, Diag.refPath g = none := by
  have h := list_dir_eq_some cfgR env0 fsL (QItem.mk lp 0) [] [] opendir_fsL
  rw [if_pos lp_ge] at h
  rw [h]
  refine ⟨rfl, ?_⟩
  intro g hg
  simp only [LdResult.mk.injEq, List.mem_singleton] at hg
  rw [hg]
  rfl

/-- Claim C8 (amended): when the base path of a queued directory reaches
the maximum length, only that directory's listing is abandoned (no output,
queue untouched) and the run continues with the remaining queued
directories, but the emitted stderr diagnostic is the fixed message
`too long path` and does not reference the offending path. -/
theorem c8_amended_too_long_path (cfg : Config) (env : Env) (fs : Fs)
    (b : QItem) (next : List QItem) (fuel : Nat) (dents : List DirEnt)
    (hopen : opendir fs b.path = some dents)
    (hlen : b.path.length ≥ PATH_MAX - 1) :
    list_dir cfg env fs b next =
      ⟨[], [Diag.plain "too long path"], next, true, false⟩
    ∧ run cfg env fs (fuel + 1) (b :: next) =
        ((if b.depth != 0 then [Out.header b.path] else [])
          ++ (run cfg env fs fuel next).1,
         Diag.plain "too long path" :: (run cfg env fs fuel next).2)
    ∧ Diag.refPath (Diag.plain "too long path") = none := by
  have hld : list_dir cfg env fs b next =
      ⟨[], [Diag.plain "too long path"], next, true, false⟩ := by
    rw [list_dir_eq_some cfg env fs b next dents hopen, if_pos hlen]
  refine ⟨hld, ?_, rfl⟩
  rw [run_cons cfg env fs fuel b next, hld]
  simp

/-- Witness instantiating `c8_amended_too_long_path` at the concrete
4095-character path. -/
theorem c8_amended_too_long_path_witness :
    (opendir fsL (QItem.mk lp 0).path = some []
      ∧ (QItem.mk lp 0).path.length ≥ PATH_MAX - 1)
    ∧ (list_dir cfgR env0 fsL (QItem.mk lp 0) [] =
        ⟨[], [Diag.plain "too long path"], [], true, false⟩
      ∧ run cfgR env0 fsL (0 + 1) (QItem.mk lp 0 :: []) =
          ((if (QItem.mk lp 0).depth != 0 then [Out.header (QItem.mk lp 0).path] else [])
            ++ (run cfgR env0 fsL 0 []).1,
           Diag.plain "too long path" :: (run cfgR env0 fsL 0 []).2)
      ∧ Diag.refPath (Diag.plain "too long path") = none) :=
  ⟨⟨opendir_fsL, lp_ge⟩,
    c8_amended_too_long_path cfgR env0 fsL (QItem.mk lp 0) [] 0 [] opendir_fsL lp_ge⟩

end Ls11
